import Mathlib

/-!
Verification development for the melonJS runtime core (2018 era):
the physics `Body` (src/physics/body.js), the `Pointer` input normalizer,
and the state manager / run loop (both in the unnamed module).

Numbers are modelled as rationals (`ℚ`).  JS truthiness of a number is
modelled as `≠ 0`; `undefined` parameters are modelled with `Option`.
-/

namespace MelonJS

/-- A 2d vector, modelling `me.Vector2d` (only the fields the core reads). -/
structure Vec2 where
  x : ℚ
  y : ℚ
deriving DecidableEq, Repr

/-- An axis-aligned rectangle: position plus size, modelling `me.Rect`
(the body and the pointer both extend it). -/
structure Rect where
  posx : ℚ
  posy : ℚ
  width : ℚ
  height : ℚ
deriving DecidableEq, Repr

/-- Right edge of a rectangle (`this.right` in the source). -/
def Rect.right (r : Rect) : ℚ := r.posx + r.width

/-- Bottom edge of a rectangle (`this.bottom` in the source). -/
def Rect.bottom (r : Rect) : ℚ := r.posy + r.height

/-- Modelled from the spec: `me.Rect.union` (src/shapes/rectangle.js is not
part of the excerpt; the spec lists the shape/bounds primitive with
"position, size, union" as an external collaborator).  The union of two
axis-aligned rectangles is the smallest rectangle containing both:
position is the componentwise minimum, the extent reaches to the maximal
right/bottom edge. -/
def Rect.union (a b : Rect) : Rect :=
  let x1 := min a.posx b.posx
  let y1 := min a.posy b.posy
  { posx := x1
    posy := y1
    width := max a.right b.right - x1
    height := max a.bottom b.bottom - y1 }

/-- `Math.sign` on rationals (no NaN / negative zero in the model). -/
def jsSign (q : ℚ) : ℚ := if 0 < q then 1 else if q < 0 then -1 else 0

/-- Modelled from the spec: `me.Math.clamp` (not part of the excerpt; the
spec only says velocities are clamped to `[-maxVel, maxVel]`): a chained
conditional, returning `low` below the range and `high` above it. -/
def clamp (val low high : ℚ) : ℚ :=
  if val < low then low else if high < val then high else val

/-- Truncation toward zero, the numeric effect of the JS `~~` double
bitwise-not on values in int32 range. -/
def jsTrunc (q : ℚ) : Int := if 0 ≤ q then ⌊q⌋ else ⌈q⌉

/-- `~~x` in full: ToInt32 — truncate, then wrap into the signed 32-bit
range. -/
def toInt32 (q : ℚ) : Int := (jsTrunc q + 2 ^ 31) % 2 ^ 32 - 2 ^ 31

/--
The physics body of src/physics/body.js.  Collision shapes only ever reach
the body logic through `getBounds()` (see `updateBounds`), so a shape is
represented by its axis-aligned bounding rectangle; `me.Rect.toPolygon`
(applied by `addShape` to rectangle inputs) preserves the bounds.  The
rectangle the body itself extends (`super(0, 0, parent.width,
parent.height)`) is the `pos`/`width`/`height` triple.  The ancestor
back-reference is represented by the only field the body mutates on it,
its position.  The `onBodyUpdate` callback is represented by whether one
is registered plus a count of invocations.
-/
structure Body where
  posx : ℚ
  posy : ℚ
  width : ℚ
  height : ℚ
  shapes : List Rect
  ancestorPos : Vec2
  vel : Vec2
  accel : Vec2
  friction : Vec2
  maxVel : Vec2
  bounce : ℚ
  gravity : ℚ
  falling : Bool
  jumping : Bool
  hasOnBodyUpdate : Bool
  onBodyUpdateCount : Nat
deriving DecidableEq, Repr

/-- The body's own bounding rectangle (position plus width/height). -/
def Body.bounds (b : Body) : Rect :=
  { posx := b.posx, posy := b.posy, width := b.width, height := b.height }

/--
`Body.updateBounds` (body.js lines 406-424): if the shape list is non
empty, reset the body rectangle from shape 0's bounds
(`this.pos.setV(_bounds.pos); this.resize(...)`) and fold `union` over the
remaining shapes' bounds; afterwards always invoke the `onBodyUpdate`
callback when one is registered.
-/
def Body.updateBounds (b : Body) : Body :=
  let b :=
    match b.shapes with
    | [] => b
    | s0 :: rest =>
        let u := rest.foldl Rect.union s0
        { b with posx := u.posx, posy := u.posy,
                 width := u.width, height := u.height }
  if b.hasOnBodyUpdate then
    { b with onBodyUpdateCount := b.onBodyUpdateCount + 1 }
  else b

/--
`Body.addShape` (body.js lines 198-213): push the shape (rectangles are
converted with `toPolygon`, which keeps the same bounds — invisible in this
model), recompute the bounds unless `batchInsert` is `true`, and return
the new length of the shape list.
-/
def Body.addShape (b : Body) (shape : Rect) (batchInsert : Bool) :
    Body × Nat :=
  let b := { b with shapes := b.shapes ++ [shape] }
  let b := if batchInsert ≠ true then b.updateBounds else b
  (b, b.shapes.length)

/--
`Body.removeShape` (body.js lines 317-325): `me.utils.array.remove`
deletes the first occurrence of the shape if present (a missing shape,
including the `undefined` produced by an out-of-range `removeShapeAt`
index, removes nothing), then the bounds are always recomputed and the new
length returned.
-/
def Body.removeShape (b : Body) (shape : Option Rect) : Body × Nat :=
  let b :=
    match shape with
    | some s => { b with shapes := b.shapes.erase s }
    | none => b
  let b := b.updateBounds
  (b, b.shapes.length)

/-- `Body.getShape` (body.js lines 304-306): `this.shapes[index || 0]`. -/
def Body.getShape (b : Body) (index : Nat) : Option Rect :=
  b.shapes.get? index

/-- `Body.removeShapeAt` (body.js lines 336-338):
`this.removeShape(this.getShape(index))`. -/
def Body.removeShapeAt (b : Body) (index : Nat) : Body × Nat :=
  b.removeShape (b.getShape index)

/--
The `Body` constructor (body.js lines 24-186): rectangle seeded from the
parent's size at position `(0, 0)`, vectors zeroed, `maxVel` at
`(1000, 1000)`, `gravity` from `me.sys.gravity` when defined (else 0.98),
flags cleared; then, when an initial shape list is given, each shape is
added with `batchInsert` set and the bounds are recomputed once.
-/
def Body.construct (parentW parentH : ℚ) (ancestorPos : Vec2)
    (shapes : Option (List Rect)) (hasOnBodyUpdate : Bool)
    (sysGravity : Option ℚ) : Body :=
  let b : Body :=
    { posx := 0, posy := 0, width := parentW, height := parentH
      shapes := []
      ancestorPos := ancestorPos
      vel := ⟨0, 0⟩, accel := ⟨0, 0⟩, friction := ⟨0, 0⟩
      maxVel := ⟨1000, 1000⟩
      bounce := 0
      gravity := sysGravity.getD (49/50)
      falling := false, jumping := false
      hasOnBodyUpdate := hasOnBodyUpdate
      onBodyUpdateCount := 0 }
  match shapes with
  | none => b
  | some l =>
      let b := l.foldl (fun acc s => (acc.addShape s true).1) b
      b.updateBounds

/--
`Body.setCollisionMask` (body.js lines 357-359). -/
def Body.setCollisionMask (mask : Int) (b : Body × Int) : Body × Int :=
  (b.1, mask)

/--
`Body.setMaxVelocity` (body.js lines 454-457): unconditionally overwrite
both components of `maxVel`. -/
def Body.setMaxVelocity (b : Body) (x y : ℚ) : Body :=
  { b with maxVel := ⟨x, y⟩ }

/--
`Body.setVelocity` (body.js lines 437-443): each acceleration component is
overwritten only when the corresponding argument is not `0`
(`x !== 0 ? x : this.accel.x`), then `setMaxVelocity(x, y)` is always
called with the raw arguments. -/
def Body.setVelocity (b : Body) (x y : ℚ) : Body :=
  let b := { b with accel := ⟨if x ≠ 0 then x else b.accel.x,
                              if y ≠ 0 then y else b.accel.y⟩ }
  b.setMaxVelocity x y

/--
`Body.setFriction` (body.js lines 468-471): `x || 0` — the identity on
rationals (the guard is for `undefined`/`NaN`). -/
def Body.setFriction (b : Body) (x y : ℚ) : Body :=
  { b with friction := ⟨x, y⟩ }

/--
`Body.applyFriction` (body.js lines 477-493): per axis, with
`f = friction * me.timer.tick`, the new velocity is `v + f` when that is
negative, else `v - f` when that is positive, else exactly `0`. -/
def Body.applyFriction (b : Body) (tick : ℚ) (vel : Vec2) : Vec2 :=
  let fx := b.friction.x * tick
  let nx := vel.x + fx
  let x := vel.x - fx
  let fy := b.friction.y * tick
  let ny := vel.y + fy
  let y := vel.y - fy
  { x := if nx < 0 then nx else if 0 < x then x else 0
    y := if ny < 0 then ny else if 0 < y then y else 0 }

/--
`Body.computeVelocity` (body.js lines 499-523), with `me.timer.tick`
passed explicitly: when `gravity` is truthy, add `gravity * tick` to the
vertical velocity and recompute the `falling`/`jumping` flags; when either
friction component is truthy, apply `applyFriction`; finally clamp each
nonzero component to `[-maxVel, maxVel]` (a zero component is left
alone). -/
def Body.computeVelocity (b : Body) (tick : ℚ) : Body :=
  let b :=
    if b.gravity ≠ 0 then
      let vy := b.vel.y + b.gravity * tick
      let falling := decide (0 < vy * jsSign b.gravity)
      { b with vel := ⟨b.vel.x, vy⟩
               falling := falling
               jumping := if falling then false else b.jumping }
    else b
  let b :=
    if b.friction.x ≠ 0 ∨ b.friction.y ≠ 0 then
      { b with vel := b.applyFriction tick b.vel }
    else b
  let vy := if b.vel.y ≠ 0 then clamp b.vel.y (-b.maxVel.y) b.maxVel.y
            else b.vel.y
  let vx := if b.vel.x ≠ 0 then clamp b.vel.x (-b.maxVel.x) b.maxVel.x
            else b.vel.x
  { b with vel := ⟨vx, vy⟩ }

/--
`Body.update` (body.js lines 532-541): the source signature is
`update (/* dt */)` — callers pass a frame delta but the parameter is
commented out and the body reads only the process-wide `me.timer.tick`
(passed explicitly here).  The unused `dt` argument is kept to mirror the
call sites.  Computes the velocity, adds it to the ancestor's position,
and returns whether the resulting velocity is nonzero on either axis. -/
def Body.update (b : Body) (tick : ℚ) (dt : ℚ) : Body × Bool :=
  let _ := dt
  let b := b.computeVelocity tick
  let b := { b with ancestorPos := ⟨b.ancestorPos.x + b.vel.x,
                                    b.ancestorPos.y + b.vel.y⟩ }
  (b, decide (b.vel.x ≠ 0) || decide (b.vel.y ≠ 0))

/--
`Body.respondToCollision` (body.js lines 369-396): subtract the overlap
vector from the ancestor's position; on each axis with nonzero overlap,
round the corrected velocity with `~~(0.5 + v - overlap)` (the `|| 0`
guard only rewrites JS `-0`, an identity on rationals) and flip it scaled
by `bounce` when `bounce > 0`; on nonzero vertical overlap additionally
recompute `falling`/`jumping` from the overlap sign relative to
`dir = Math.sign(gravity) || 1`. -/
def Body.respondToCollision (b : Body) (overlap : Vec2) : Body :=
  let b := { b with ancestorPos := ⟨b.ancestorPos.x - overlap.x,
                                    b.ancestorPos.y - overlap.y⟩ }
  let b : Body :=
    if overlap.x ≠ 0 then
      let vx : ℚ := ((toInt32 (1/2 + b.vel.x - overlap.x) : Int) : ℚ)
      let vx : ℚ := if 0 < b.bounce then vx * (-b.bounce) else vx
      { b with vel := ⟨vx, b.vel.y⟩ }
    else b
  if overlap.y ≠ 0 then
    let vy : ℚ := ((toInt32 (1/2 + b.vel.y - overlap.y) : Int) : ℚ)
    let vy : ℚ := if 0 < b.bounce then vy * (-b.bounce) else vy
    let dir := if jsSign b.gravity = 0 then 1 else jsSign b.gravity
    { b with vel := ⟨b.vel.x, vy⟩
             falling := decide (dir ≤ overlap.y)
             jumping := decide (overlap.y ≤ -dir) }
  else b

/-! ## Pointer (input event normalizer) -/

/--
The host input event consumed by `Pointer.setEvent` (the fields the method
reads).  `isPointerEventInstance` models
`event instanceof window.PointerEvent`; `Option` fields model properties
that may be `undefined` (the source tests them with `typeof`); the
`wheelDelta` family is read only on `"wheel"` events, which the engine
always synthesizes with those fields present. -/
structure PtrEvent where
  type : String
  isPointerEventInstance : Bool
  button : Option ℚ
  isPrimary : Option Bool
  width : ℚ
  height : ℚ
  radiusX : Option ℚ
  radiusY : Option ℚ
  deltaX : ℚ
  wheelDelta : ℚ
  wheelDeltaX : ℚ
deriving DecidableEq, Repr

/--
The engine context `setEvent` consults: `me.input.globalToLocal` (writes
the pointer's `pos`), `me.game.viewport.localToWorld`, and the
`me.device.PointerEvent` feature flag. -/
structure InputEnv where
  globalToLocal : ℚ → ℚ → Vec2
  localToWorld : ℚ → ℚ → Vec2
  devicePointerEvent : Bool

/--
The pointer record (Pointer extends `me.Rect`; `pos`/`width`/`height` are
the inherited rectangle).  Only the fields the constructor and `setEvent`
touch are modelled; `gameX`/`gameY`/`gameLocalX`/`gameLocalY` are set
elsewhere in the engine and omitted. -/
structure Pointer where
  pos : Vec2
  width : ℚ
  height : ℚ
  eventRef : Option PtrEvent
  type : Option String
  button : ℚ
  isPrimary : Bool
  isNormalized : Bool
  clientX : ℚ
  clientY : ℚ
  deltaMode : Nat
  deltaX : ℚ
  deltaY : ℚ
  pointerId : Option ℚ
  gameScreenX : ℚ
  gameScreenY : ℚ
  gameWorldX : ℚ
  gameWorldY : ℚ

/--
`Pointer.setEvent` (unnamed module lines 192-247): store the raw event and
client coordinates (`clientX || 0` only guards `undefined`, identity
here), translate to local coordinates via `globalToLocal`, detect whether
the event must be treated as normalized (not a native pointer event),
special-case `"wheel"` events (`deltaY = -1/40 * wheelDelta`, and
`deltaX` overridden from `wheelDeltaX` when that is truthy), default
`pointerId` to `1` only when the argument is `undefined`, default
`isPrimary` to `true` and `button` to `0` when missing on the event,
project the screen and world coordinate pairs, and resize the pointer
rectangle to the native pointer size, else the doubled touch radius, else
`1 × 1`. -/
def Pointer.setEvent (p : Pointer) (env : InputEnv) (event : PtrEvent)
    (clientX clientY : ℚ) (pointerId : Option ℚ) : Pointer :=
  let p := { p with eventRef := some event
                    clientX := clientX
                    clientY := clientY
                    pos := env.globalToLocal clientX clientY }
  let isNormalized :=
    !env.devicePointerEvent
      || (env.devicePointerEvent && !event.isPointerEventInstance)
  let p := { p with isNormalized := isNormalized }
  let p :=
    if event.type = "wheel" then
      let p := { p with deltaMode := 1
                        deltaX := event.deltaX
                        deltaY := -1/40 * event.wheelDelta }
      if event.wheelDeltaX ≠ 0 then
        { p with deltaX := -1/40 * event.wheelDeltaX }
      else p
    else p
  let p := { p with pointerId := some (pointerId.getD 1)
                    isPrimary := event.isPrimary.getD true
                    button := event.button.getD 0
                    type := some event.type
                    gameScreenX := p.pos.x
                    gameScreenY := p.pos.y }
  let world := env.localToWorld p.gameScreenX p.gameScreenY
  let p := { p with gameWorldX := world.x, gameWorldY := world.y }
  let wh : ℚ × ℚ :=
    if isNormalized = false then
      (event.width, event.height)
    else
      match event.radiusX with
      | some rx => (rx * 2, (event.radiusY.getD 0) * 2)
      | none => (1, 1)
  { p with width := wh.1, height := wh.2 }

/-! ## State manager -/

/-- A registry entry: `_screenObject[state] = { screen, transition }`.
A screen object is identified by a natural number. -/
structure ScreenEntry where
  screen : Nat
  transition : Bool
deriving DecidableEq, Repr

/-- Observable lifecycle calls made by the state manager on screens and on
the game/viewport singletons. -/
inductive Ev where
  | destroy (screen : Nat)
  | reset (screen : Nat) (args : List Int)
  | fadeOut
  | repaint
deriving DecidableEq, Repr

/-- A deferred action: `me.utils.function.defer(_switchState, this, s)`
schedules the switch after the current frame (`deferred`), and
`viewport.fadeIn(color, duration, cb)` invokes `cb` asynchronously when
the fade completes, which in turn defers the switch (`fadeIn`). -/
inductive Pending where
  | deferred (state : Int)
  | fadeIn (state : Int)
deriving DecidableEq, Repr

/-- The state the deferred action will eventually switch to. -/
def Pending.target : Pending → Int
  | .deferred s => s
  | .fadeIn s => s

/--
The module-level mutable state of the state manager (unnamed module lines
256-282), plus an event log and a queue of deferred actions standing for
the host's after-this-frame scheduling.  `frameCounter` produces the fresh
nonnegative ids `window.requestAnimationFrame` returns (so a scheduled
frame id is never `-1`). -/
structure StM where
  state : Int
  screens : List (Int × ScreenEntry)
  animFrameId : Int
  isPaused : Bool
  fadeDuration : ℚ
  onSwitchComplete : Bool
  extraArgs : Option (List Int)
  frameCounter : Nat
  log : List Ev
  pending : List Pending

/-- The module state at load time: no current state (`-1`), empty
registry, no scheduled frame. -/
def StM.start : StM :=
  { state := -1, screens := [], animFrameId := -1, isPaused := false
    fadeDuration := 0, onSwitchComplete := false, extraArgs := none
    frameCounter := 0, log := [], pending := [] }

/-- `isRunning` (lines 643-645): a frame callback is scheduled. -/
def StM.isRunning (m : StM) : Bool := m.animFrameId ≠ -1

/-- `isCurrent` (lines 817-819). -/
def StM.isCurrent (m : StM) (state : Int) : Bool := m.state = state

/-- `set` (lines 705-712): register a screen under a state id with
transitions enabled (the `instanceof me.ScreenObject` check is vacuous
here, every `Nat` names a valid screen object). -/
def StM.set (m : StM) (state : Int) (screen : Nat) : StM :=
  { m with screens :=
      (state, ⟨screen, true⟩) :: m.screens.filter (fun e => e.1 ≠ state) }

/--
`current` (lines 723-725): `return _screenObject[_state].screen;` — when
no entry exists for the current state the JS property access on
`undefined` throws a `TypeError`, modelled as `Except.error`. -/
def StM.current (m : StM) : Except String Nat :=
  match m.screens.lookup m.state with
  | some e => .ok e.screen
  | none => .error "TypeError: Cannot read property of undefined"

/-- `_stopRunLoop` (lines 341-345). -/
def StM.stopRunLoop (m : StM) : StM := { m with animFrameId := -1 }

/-- `_startRunLoop` (lines 287-296): only when nothing is scheduled and
the state is valid, reset the timer and schedule a frame (a fresh
nonnegative id). -/
def StM.startRunLoop (m : StM) : StM :=
  if m.animFrameId = -1 ∧ m.state ≠ -1 then
    { m with animFrameId := Int.ofNat m.frameCounter
             frameCounter := m.frameCounter + 1 }
  else m

/--
`_switchState` (lines 351-380): stop the run loop; destroy the outgoing
screen if one is registered for the current state; then, if the target is
registered: update `_state`, call `reset` with the stored extra arguments
(`reset.apply(screen, null)` passes no arguments), restart the run loop,
invoke the switch-complete callback if set (in the fade path it fades the
viewport back in), and force a repaint. -/
def StM.switchState (m : StM) (state : Int) : StM :=
  let m := m.stopRunLoop
  let m : StM :=
    match m.screens.lookup m.state with
    | some e => { m with log := m.log ++ [Ev.destroy e.screen] }
    | none => m
  match m.screens.lookup state with
  | some e =>
      let m : StM := { m with state := state }
      let m : StM :=
        { m with log := m.log ++ [Ev.reset e.screen (m.extraArgs.getD [])] }
      let m := m.startRunLoop
      let m : StM :=
        if m.onSwitchComplete then { m with log := m.log ++ [Ev.fadeOut] }
        else m
      { m with log := m.log ++ [Ev.repaint] }
  | none => m

/-- The lookup-error message
`"Undefined ScreenObject for state '" + state + "'"`. -/
def changeErrorMsg (state : Int) : String :=
  "Undefined ScreenObject for state \x27" ++ toString state ++ "\x27"

/--
`change` (lines 770-807): throw when no screen is registered for the
requested state; silently return when it already is the current state;
otherwise store the extra arguments (`null` when none were passed) and
schedule the switch — through `viewport.fadeIn` when a global fade
duration is set and the target has transitions enabled (also installing
the fade-back-in switch-complete callback), else directly via `defer`.
In both paths nothing else happens synchronously. -/
def StM.change (m : StM) (state : Int) (args : List Int) :
    Except String StM :=
  match m.screens.lookup state with
  | none => .error (changeErrorMsg state)
  | some entry =>
      if m.isCurrent state then .ok m
      else
        let m : StM :=
          { m with extraArgs := if args.isEmpty then none else some args }
        if m.fadeDuration ≠ 0 ∧ entry.transition then
          .ok { m with onSwitchComplete := true
                       pending := m.pending ++ [Pending.fadeIn state] }
        else
          .ok { m with pending := m.pending ++ [Pending.deferred state] }

/-- The host draining one deferred action after the frame: a deferred
switch runs `_switchState`; a completed fade-in invokes its callback,
which defers the switch. -/
def StM.runPending (m : StM) : Pending → StM
  | .deferred s => m.switchState s
  | .fadeIn s => { m with pending := m.pending ++ [.deferred s] }

/-! ## Derived projections (definitions used to state the theorems) -/

/-- The union of a list of rectangles, seeded from its head exactly as
`updateBounds` seeds from shape 0 (`none` for the empty list). -/
def unionAllL : List Rect → Option Rect
  | [] => none
  | a :: t => some (t.foldl Rect.union a)

/-- The effect of `applyFriction` on one axis: `f` is the friction delta
`friction * tick` for that axis and `v` the axis velocity. -/
def axFriction (f v : ℚ) : ℚ :=
  if v + f < 0 then v + f else if 0 < v - f then v - f else 0

/-- The effect of one `update` call on one axis velocity when gravity is
zero and friction is applied: friction followed by the conditional clamp
to `[-m, m]`. -/
def axStep (f m v : ℚ) : ℚ :=
  let v1 := axFriction f v
  if v1 ≠ 0 then clamp v1 (-m) m else v1

/-- One whole-body `update` step (`tick` fixed, the ignored `dt` passed as
`0`), as iterated by the convergence statements. -/
def stepBody (tick : ℚ) (b : Body) : Body := (b.update tick 0).1

/-! ## Concrete fixtures used by witnesses and counterexamples -/

/-- A body at rest with two shapes, used to instantiate the bounds
invariant. -/
def bodyFix : Body :=
  { posx := 0, posy := 0, width := 4, height := 4
    shapes := [⟨0, 0, 2, 2⟩, ⟨1, 1, 3, 3⟩]
    ancestorPos := ⟨0, 0⟩
    vel := ⟨0, 0⟩, accel := ⟨0, 0⟩, friction := ⟨0, 0⟩
    maxVel := ⟨1000, 1000⟩
    bounce := 0, gravity := 0
    falling := false, jumping := false
    hasOnBodyUpdate := true, onBodyUpdateCount := 0 }

/-- A body with positive friction on both axes, zero gravity and zero
acceleration, used to instantiate the friction-convergence theorem. -/
def bodyFriction : Body :=
  { bodyFix with shapes := [], hasOnBodyUpdate := false
                 friction := ⟨2, 3⟩, vel := ⟨5, 7⟩ }

/-- A body with *negative* (but nonzero) horizontal friction: the
counterexample input for the friction claim as stated. -/
def bodyNegFriction : Body :=
  { bodyFriction with friction := ⟨-1, 0⟩, vel := ⟨1/2, 0⟩ }

/-- A state manager with two registered screens, currently in state `0`,
used to instantiate the deferred-switch theorems. -/
def stmFix : StM :=
  { StM.start with state := 0
                   screens := [(0, ⟨10, true⟩), (1, ⟨11, true⟩)]
                   animFrameId := 7, frameCounter := 8 }

/-- A pointer with every field zeroed, used to instantiate the
`setEvent` theorems. -/
def ptrFix : Pointer :=
  { pos := ⟨0, 0⟩, width := 1, height := 1
    eventRef := none, type := none, button := 0
    isPrimary := false, isNormalized := false
    clientX := 0, clientY := 0
    deltaMode := 0, deltaX := 0, deltaY := 0
    pointerId := none
    gameScreenX := 0, gameScreenY := 0, gameWorldX := 0, gameWorldY := 0 }

/-- A trivial input environment for the pointer fixtures. -/
def envFix : InputEnv :=
  { globalToLocal := fun x y => ⟨x, y⟩
    localToWorld := fun x y => ⟨x + 100, y + 100⟩
    devicePointerEvent := false }

/-- A wheel event with `wheelDelta = 80`. -/
def wheelEvent : PtrEvent :=
  { type := "wheel", isPointerEventInstance := false
    button := some 0, isPrimary := none
    width := 1, height := 1, radiusX := none, radiusY := none
    deltaX := 3, wheelDelta := 80, wheelDeltaX := 0 }

/-! ## Union algebra -/

theorem Rect.union_posx (a b : Rect) :
    (a.union b).posx = min a.posx b.posx := rfl

theorem Rect.union_posy (a b : Rect) :
    (a.union b).posy = min a.posy b.posy := rfl

theorem Rect.union_right (a b : Rect) :
    (a.union b).right = max a.right b.right := by
  simp only [Rect.union, Rect.right]
  ring

theorem Rect.union_bottom (a b : Rect) :
    (a.union b).bottom = max a.bottom b.bottom := by
  simp only [Rect.union, Rect.bottom]
  ring

theorem Rect.eq_iff_edges {a b : Rect} :
    a = b ↔ a.posx = b.posx ∧ a.posy = b.posy
      ∧ a.right = b.right ∧ a.bottom = b.bottom := by
  constructor
  · rintro rfl; exact ⟨rfl, rfl, rfl, rfl⟩
  · rintro ⟨h1, h2, h3, h4⟩
    cases a; cases b
    simp only [Rect.right, Rect.bottom] at h1 h2 h3 h4 ⊢
    subst h1; subst h2
    simp only [Rect.mk.injEq, true_and]
    constructor <;> linarith

theorem Rect.union_comm (a b : Rect) : a.union b = b.union a := by
  rw [Rect.eq_iff_edges]
  simp [Rect.union_posx, Rect.union_posy, Rect.union_right,
    Rect.union_bottom, min_comm, max_comm]

theorem maxRightComm (a b c : ℚ) : max (max a b) c = max (max a c) b := by
  rw [max_assoc, max_comm b c, ← max_assoc]

theorem Rect.union_right_comm (a b c : Rect) :
    (a.union b).union c = (a.union c).union b := by
  rw [Rect.eq_iff_edges]
  simp only [Rect.union_posx, Rect.union_posy, Rect.union_right,
    Rect.union_bottom]
  exact ⟨min_right_comm _ _ _, min_right_comm _ _ _,
    maxRightComm _ _ _, maxRightComm _ _ _⟩

theorem foldl_union_perm {l₁ l₂ : List Rect} (p : l₁.Perm l₂) :
    ∀ a : Rect, l₁.foldl Rect.union a = l₂.foldl Rect.union a := by
  induction p with
  | nil => intro a; rfl
  | cons x _p ih => intro a; simpa using ih (a.union x)
  | swap x y l =>
      intro a
      simp only [List.foldl_cons]
      rw [Rect.union_right_comm]
  | trans _p _q ih₁ ih₂ => intro a; rw [ih₁ a, ih₂ a]

theorem unionAllL_perm {l₁ l₂ : List Rect} (p : l₁.Perm l₂) :
    unionAllL l₁ = unionAllL l₂ := by
  induction p with
  | nil => rfl
  | cons x p ih => simp [unionAllL, foldl_union_perm p]
  | swap x y l => simp [unionAllL, List.foldl_cons, Rect.union_comm x y]
  | trans _p _q ih₁ ih₂ => rw [ih₁, ih₂]

/-! ## `updateBounds` helpers -/

theorem updateBounds_of_cons {b : Body} {s0 : Rect} {rest : List Rect}
    (h : b.shapes = s0 :: rest) :
    (b.updateBounds).bounds = rest.foldl Rect.union s0
      ∧ (b.updateBounds).shapes = b.shapes := by
  simp only [Body.updateBounds, h]
  split <;> simp [Body.bounds]

theorem updateBounds_of_nil {b : Body} (h : b.shapes = []) :
    (b.updateBounds).bounds = b.bounds ∧ (b.updateBounds).shapes = [] := by
  simp only [Body.updateBounds, h]
  split <;> simp [Body.bounds, h]

theorem updateBounds_count (b : Body) :
    (b.updateBounds).onBodyUpdateCount
      = b.onBodyUpdateCount + (if b.hasOnBodyUpdate then 1 else 0) := by
  rcases hs : b.shapes with _ | ⟨s0, rest⟩ <;>
    · simp only [Body.updateBounds, hs]
      split <;> simp_all

theorem foldl_addShape_batch (l : List Rect) (b : Body) :
    l.foldl (fun acc s => (acc.addShape s true).1) b
      = { b with shapes := b.shapes ++ l } := by
  induction l generalizing b with
  | nil => simp
  | cons x t ih =>
      rw [List.foldl_cons, ih]
      simp [Body.addShape]

theorem construct_some (pw ph : ℚ) (ap : Vec2) (l : List Rect) (cb : Bool)
    (g : Option ℚ) :
    Body.construct pw ph ap (some l) cb g
      = Body.updateBounds
          { posx := 0, posy := 0, width := pw, height := ph
            shapes := l
            ancestorPos := ap
            vel := ⟨0, 0⟩, accel := ⟨0, 0⟩, friction := ⟨0, 0⟩
            maxVel := ⟨1000, 1000⟩
            bounce := 0
            gravity := g.getD (49/50)
            falling := false, jumping := false
            hasOnBodyUpdate := cb
            onBodyUpdateCount := 0 } := by
  simp [Body.construct, foldl_addShape_batch]

/--
Claim C1: immediately after `updateBounds` returns — and therefore after
construction with a shape list, after a non-batch `addShape`, and after
`removeShape`/`removeShapeAt`, each of which is the corresponding
pre-state followed by `updateBounds` — the body's own rectangle equals
the union of the bounding boxes of the shapes in its list, seeded from
shape 0; that union is invariant under permutation of the shape list;
and on an empty shape list `updateBounds` leaves the rectangle unchanged
while still invoking the `onBodyUpdate` callback when one is set.
-/
theorem body_bounds_union_invariant :
    ∀ (b : Body) (s0 sh : Rect) (rest : List Rect) (o : Option Rect)
      (i : Nat) (l₁ l₂ : List Rect) (pw ph : ℚ) (ap : Vec2) (cb : Bool)
      (g : Option ℚ),
      (b.shapes = s0 :: rest →
        (b.updateBounds).bounds = rest.foldl Rect.union s0
          ∧ (b.updateBounds).shapes = b.shapes
          ∧ unionAllL b.shapes = some ((b.updateBounds).bounds))
      ∧ (b.shapes = [] →
        (b.updateBounds).bounds = b.bounds ∧ (b.updateBounds).shapes = [])
      ∧ (b.updateBounds).onBodyUpdateCount
          = b.onBodyUpdateCount + (if b.hasOnBodyUpdate then 1 else 0)
      ∧ (l₁.Perm l₂ → unionAllL l₁ = unionAllL l₂)
      ∧ (b.addShape sh false).1
          = Body.updateBounds { b with shapes := b.shapes ++ [sh] }
      ∧ (b.removeShape o).1
          = Body.updateBounds
              { b with shapes := match o with
                                 | some s => b.shapes.erase s
                                 | none => b.shapes }
      ∧ b.removeShapeAt i = b.removeShape (b.getShape i)
      ∧ ((s0 :: rest : List Rect) ≠ [] →
          (Body.construct pw ph ap (some (s0 :: rest)) cb g).bounds
            = rest.foldl Rect.union s0) := by
  intro b s0 sh rest o i l₁ l₂ pw ph ap cb g
  refine ⟨?_, ?_, updateBounds_count b, unionAllL_perm, ?_, ?_, rfl, ?_⟩
  · intro h
    obtain ⟨h1, h2⟩ := updateBounds_of_cons h
    exact ⟨h1, h2, by rw [h, unionAllL, h1]⟩
  · exact updateBounds_of_nil
  · simp only [Body.addShape, ne_eq, Bool.false_eq_true, not_false_iff,
      if_true, reduceIte]
  · cases o <;> rfl
  · intro _
    rw [construct_some]
    exact (updateBounds_of_cons rfl).1

/-- Witness for C1 at a concrete two-shape body: the hypotheses are
discharged at `bodyFix` and the resulting bounds evaluate to the union
rectangle `(0, 0) – (4, 4)`. -/
theorem body_bounds_union_invariant_w :
    bodyFix.shapes = (⟨0, 0, 2, 2⟩ : Rect) :: [(⟨1, 1, 3, 3⟩ : Rect)]
      ∧ (bodyFix.updateBounds).bounds
          = [(⟨1, 1, 3, 3⟩ : Rect)].foldl Rect.union ⟨0, 0, 2, 2⟩
      ∧ (bodyFix.updateBounds).bounds = ⟨0, 0, 4, 4⟩ := by
  have h := ((body_bounds_union_invariant bodyFix ⟨0, 0, 2, 2⟩ ⟨0, 0, 1, 1⟩
    [⟨1, 1, 3, 3⟩] none 0 [] [] 0 0 ⟨0, 0⟩ false none).1 rfl).1
  refine ⟨rfl, h, ?_⟩
  rw [h]
  simp only [List.foldl_cons, List.foldl_nil, Rect.union, Rect.right,
    Rect.bottom]
  norm_num [min_def, max_def]

/-! ## Per-axis friction lemmas -/

theorem applyFriction_x_eq (b : Body) (tick : ℚ) (v : Vec2) :
    (b.applyFriction tick v).x = axFriction (b.friction.x * tick) v.x := rfl

theorem axFriction_zero {f : ℚ} (hf : 0 ≤ f) : axFriction f 0 = 0 := by
  unfold axFriction
  split_ifs with h1 h2 <;> linarith

theorem axFriction_of_small {f v : ℚ} (h : |v| ≤ f) : axFriction f v = 0 := by
  obtain ⟨h1, h2⟩ := abs_le.mp h
  unfold axFriction
  split_ifs with g1 g2 <;> linarith

theorem axFriction_of_large {f v : ℚ} (hf : 0 ≤ f) (h : f < |v|) :
    axFriction f v = v - jsSign v * f := by
  rcases lt_trichotomy v 0 with hv | hv | hv
  · have hvf : v + f < 0 := by rw [abs_of_neg hv] at h; linarith
    unfold axFriction jsSign
    rw [if_pos hvf]
    rw [if_neg (by linarith), if_pos hv]
    ring
  · subst hv; rw [abs_zero] at h; linarith
  · have : 0 < v - f := by rw [abs_of_pos hv] at h; linarith
    unfold axFriction jsSign
    rw [if_neg (by linarith), if_pos this, if_pos hv]
    ring

theorem axFriction_sign_mag {f : ℚ} (hf : 0 ≤ f) (v : ℚ) :
    0 ≤ axFriction f v * v ∧ |axFriction f v| ≤ |v| := by
  unfold axFriction
  split_ifs with h1 h2
  · have hv : v < 0 := by linarith
    constructor
    · nlinarith
    · rw [abs_of_neg (by linarith : v + f < 0), abs_of_neg hv]; linarith
  · have hv : 0 < v := by linarith
    constructor
    · nlinarith
    · rw [abs_of_pos (by linarith : 0 < v - f), abs_of_pos hv]; linarith
  · simp

theorem axFriction_abs_of_large {f v : ℚ} (hf : 0 ≤ f) (h : f < |v|) :
    |axFriction f v| = |v| - f := by
  rw [axFriction_of_large hf h]
  rcases lt_trichotomy v 0 with hv | hv | hv
  · rw [abs_of_neg hv] at h ⊢
    unfold jsSign
    rw [if_neg (by linarith), if_pos hv, abs_of_neg (by linarith)]
    ring
  · subst hv; rw [abs_zero] at h; linarith
  · rw [abs_of_pos hv] at h ⊢
    unfold jsSign
    rw [if_pos hv, abs_of_pos (by linarith)]
    ring

theorem clamp_sign_mag {m : ℚ} (hm : 0 ≤ m) (v : ℚ) :
    0 ≤ clamp v (-m) m * v ∧ |clamp v (-m) m| ≤ |v| := by
  unfold clamp
  split_ifs with h1 h2
  · have hv : v < 0 := by linarith
    constructor
    · nlinarith
    · rw [abs_of_nonpos (by linarith : -m ≤ 0), abs_of_neg hv]; linarith
  · have hv : 0 < v := by linarith
    constructor
    · nlinarith
    · rw [abs_of_nonneg hm, abs_of_pos hv]; linarith
  · exact ⟨mul_self_nonneg v, le_refl _⟩

theorem axStep_zero {f m : ℚ} (hf : 0 ≤ f) : axStep f m 0 = 0 := by
  simp [axStep, axFriction_zero hf]

theorem axStep_of_small {f m v : ℚ} (h : |v| ≤ f) : axStep f m v = 0 := by
  simp [axStep, axFriction_of_small h]

theorem axStep_sign_mag {f m : ℚ} (hf : 0 ≤ f) (hm : 0 ≤ m) (v : ℚ) :
    0 ≤ axStep f m v * v ∧ |axStep f m v| ≤ |v| := by
  obtain ⟨hs1, hs2⟩ := axFriction_sign_mag hf v
  simp only [axStep, ne_eq]
  split_ifs with h1
  · exact ⟨hs1, hs2⟩
  · obtain ⟨hc1, hc2⟩ := clamp_sign_mag hm (axFriction f v)
    refine ⟨?_, hc2.trans hs2⟩
    have hw2 : 0 < axFriction f v * axFriction f v := mul_self_pos.mpr h1
    nlinarith [mul_nonneg hc1 hs1]

theorem axStep_abs_le_max {f m : ℚ} (hf : 0 ≤ f) (hm : 0 ≤ m) (v : ℚ) :
    |axStep f m v| ≤ max (|v| - f) 0 := by
  rcases le_or_lt |v| f with h | h
  · rw [axStep_of_small h]
    simp
  · have h1 : |axFriction f v| = |v| - f := axFriction_abs_of_large hf h
    have h2 : |axStep f m v| ≤ |axFriction f v| := by
      simp only [axStep, ne_eq]
      split_ifs with hz
      · exact le_refl _
      · exact (clamp_sign_mag hm (axFriction f v)).2
    rw [h1] at h2
    exact h2.trans (le_max_left _ _)

theorem axStep_iter_zero {f m : ℚ} (hf : 0 < f) (hm : 0 ≤ m) :
    ∀ (k : ℕ) (v : ℚ), |v| ≤ k * f → (axStep f m)^[k] v = 0 := by
  intro k
  induction k with
  | zero =>
      intro v h
      simp only [Nat.cast_zero, zero_mul] at h
      have : v = 0 := abs_eq_zero.mp (le_antisymm h (abs_nonneg v))
      simp [this]
  | succ k ih =>
      intro v h
      rw [Function.iterate_succ_apply]
      apply ih
      have hb := axStep_abs_le_max hf.le hm v
      have hk : (0 : ℚ) ≤ k * f := by positivity
      have : max (|v| - f) 0 ≤ k * f := by
        apply max_le _ hk
        push_cast at h ⊢
        linarith
      exact hb.trans this

theorem axStep_iter_stays_zero {f m : ℚ} (hf : 0 ≤ f) :
    ∀ j : ℕ, (axStep f m)^[j] 0 = 0 := by
  intro j
  induction j with
  | zero => rfl
  | succ j ih => rw [Function.iterate_succ_apply, axStep_zero hf, ih]

/-! ## Projecting one `update` step to the x axis -/

theorem update_preserves_params (b : Body) (t dt : ℚ) :
    ((b.update t dt).1).friction = b.friction
      ∧ ((b.update t dt).1).maxVel = b.maxVel
      ∧ ((b.update t dt).1).gravity = b.gravity := by
  simp only [Body.update, Body.computeVelocity]
  split_ifs <;> simp

theorem update_vel_x (b : Body) (t dt : ℚ) (hg : b.gravity = 0)
    (hf : b.friction.x ≠ 0) :
    ((b.update t dt).1).vel.x
      = axStep (b.friction.x * t) b.maxVel.x b.vel.x := by
  simp only [Body.update, Body.computeVelocity, hg, ne_eq,
    not_true_eq_false, if_false, axStep, axFriction, Body.applyFriction,
    clamp]
  rw [if_pos (Or.inl hf)]

theorem stepBody_iter_vel_x (t : ℚ) :
    ∀ (n : ℕ) (b : Body), b.gravity = 0 → b.friction.x ≠ 0 →
      ((stepBody t)^[n] b).vel.x
        = (axStep (b.friction.x * t) b.maxVel.x)^[n] b.vel.x := by
  intro n
  induction n with
  | zero => intro b _ _; rfl
  | succ n ih =>
      intro b hg hf
      obtain ⟨hfr, hmv, hgr⟩ := update_preserves_params b t 0
      rw [Function.iterate_succ_apply, Function.iterate_succ_apply]
      have h1 := ih (stepBody t b) (by rw [show stepBody t b = (b.update t 0).1 from rfl, hgr, hg])
        (by rw [show stepBody t b = (b.update t 0).1 from rfl, hfr]; exact hf)
      rw [h1]
      rw [show stepBody t b = (b.update t 0).1 from rfl, hfr, hmv,
        update_vel_x b t 0 hg hf]

/-! ## Projecting one `update` step to the y axis (gravity zero) -/

theorem applyFriction_y_eq (b : Body) (tick : ℚ) (v : Vec2) :
    (b.applyFriction tick v).y = axFriction (b.friction.y * tick) v.y := rfl

theorem update_vel_y (b : Body) (t dt : ℚ) (hg : b.gravity = 0)
    (hf : b.friction.y ≠ 0) :
    ((b.update t dt).1).vel.y
      = axStep (b.friction.y * t) b.maxVel.y b.vel.y := by
  simp only [Body.update, Body.computeVelocity, hg, ne_eq,
    not_true_eq_false, if_false, axStep, axFriction, Body.applyFriction,
    clamp]
  rw [if_pos (Or.inr hf)]

theorem stepBody_iter_vel_y (t : ℚ) :
    ∀ (n : ℕ) (b : Body), b.gravity = 0 → b.friction.y ≠ 0 →
      ((stepBody t)^[n] b).vel.y
        = (axStep (b.friction.y * t) b.maxVel.y)^[n] b.vel.y := by
  intro n
  induction n with
  | zero => intro b _ _; rfl
  | succ n ih =>
      intro b hg hf
      obtain ⟨hfr, hmv, hgr⟩ := update_preserves_params b t 0
      rw [Function.iterate_succ_apply, Function.iterate_succ_apply]
      have h1 := ih (stepBody t b) (by rw [show stepBody t b = (b.update t 0).1 from rfl, hgr, hg])
        (by rw [show stepBody t b = (b.update t 0).1 from rfl, hfr]; exact hf)
      rw [h1]
      rw [show stepBody t b = (b.update t 0).1 from rfl, hfr, hmv,
        update_vel_y b t 0 hg hf]

theorem axStep_iter_sign {f m : ℚ} (hf : 0 ≤ f) (hm : 0 ≤ m) (v : ℚ) :
    ∀ n : ℕ, 0 ≤ (axStep f m)^[n] v * v := by
  intro n
  induction n with
  | zero => exact mul_self_nonneg v
  | succ n ih =>
      rw [Function.iterate_succ_apply']
      have hs := axStep_sign_mag hf hm ((axStep f m)^[n] v)
      rcases eq_or_ne ((axStep f m)^[n] v) 0 with hw | hw
      · rw [hw, axStep_zero hf]; simp
      · have hw2 : 0 < (axStep f m)^[n] v * (axStep f m)^[n] v :=
          mul_self_pos.mpr hw
        nlinarith [mul_nonneg hs.1 ih]

/--
Counterexample to claim C2 as stated: this body has nonzero friction on
the x axis (`-1`), zero gravity, zero acceleration and the default max
velocity, yet a single `applyFriction` step — and hence a single
`update` call — moves the x velocity from `1/2` *past zero* to `-1/2`:
with merely "nonzero" (here negative) friction the velocity's sign is
not preserved and the friction delta does not clamp at zero.
-/
theorem friction_claim_counterexample :
    bodyNegFriction.friction.x ≠ 0
      ∧ bodyNegFriction.gravity = 0
      ∧ bodyNegFriction.accel.x = 0
      ∧ 0 < bodyNegFriction.vel.x
      ∧ (bodyNegFriction.applyFriction 1 bodyNegFriction.vel).x = -(1/2)
      ∧ ((bodyNegFriction.update 1 0).1).vel.x = -(1/2) := by
  refine ⟨by norm_num [bodyNegFriction, bodyFriction, bodyFix],
    rfl, rfl, by norm_num [bodyNegFriction, bodyFriction, bodyFix],
    ?_, ?_⟩ <;>
    norm_num [bodyNegFriction, bodyFriction, bodyFix, Body.update,
      Body.computeVelocity, Body.applyFriction, clamp]

/--
Claim C2 (amended): for every body with *positive* friction on an axis
(the claim's "nonzero" fails for negative friction, see the
counterexample), nonnegative max velocity on that axis, zero
acceleration on that axis and gravity equal to 0, and a positive timer
tick: a single `applyFriction` step never moves that axis's velocity
past zero — the velocity is set to exactly 0 when the friction delta
`friction * tick` for the axis meets or exceeds its magnitude and
otherwise decays toward 0 by exactly that delta; and repeated `update`
calls never change that axis's velocity sign, never increase its
magnitude, and reach exactly 0 after finitely many steps, staying
there.  The two conjuncts instantiate this for the x and the y axis.
-/
theorem friction_converges_to_zero :
    ∀ (b : Body) (t : ℚ),
      0 < t → b.gravity = 0 →
      (0 < b.friction.x → b.accel.x = 0 → 0 ≤ b.maxVel.x →
        (∀ v : Vec2,
          (|v.x| ≤ b.friction.x * t → (b.applyFriction t v).x = 0)
          ∧ (b.friction.x * t < |v.x| →
              (b.applyFriction t v).x
                = v.x - jsSign v.x * (b.friction.x * t))
          ∧ 0 ≤ (b.applyFriction t v).x * v.x
          ∧ |(b.applyFriction t v).x| ≤ |v.x|)
        ∧ (∀ n : ℕ,
            0 ≤ ((stepBody t)^[n] b).vel.x * b.vel.x
            ∧ |((stepBody t)^[n + 1] b).vel.x|
                ≤ |((stepBody t)^[n] b).vel.x|)
        ∧ (∃ n : ℕ, ∀ k : ℕ, n ≤ k → ((stepBody t)^[k] b).vel.x = 0))
      ∧ (0 < b.friction.y → b.accel.y = 0 → 0 ≤ b.maxVel.y →
        (∀ v : Vec2,
          (|v.y| ≤ b.friction.y * t → (b.applyFriction t v).y = 0)
          ∧ (b.friction.y * t < |v.y| →
              (b.applyFriction t v).y
                = v.y - jsSign v.y * (b.friction.y * t))
          ∧ 0 ≤ (b.applyFriction t v).y * v.y
          ∧ |(b.applyFriction t v).y| ≤ |v.y|)
        ∧ (∀ n : ℕ,
            0 ≤ ((stepBody t)^[n] b).vel.y * b.vel.y
            ∧ |((stepBody t)^[n + 1] b).vel.y|
                ≤ |((stepBody t)^[n] b).vel.y|)
        ∧ (∃ n : ℕ, ∀ k : ℕ, n ≤ k →
            ((stepBody t)^[k] b).vel.y = 0)) := by
  intro b t ht hg
  constructor
  · intro hf ha hm
    have hft : 0 < b.friction.x * t := mul_pos hf ht
    refine ⟨?_, ?_, ?_⟩
    · intro v
      refine ⟨?_, ?_, ?_, ?_⟩
      · intro h; rw [applyFriction_x_eq]; exact axFriction_of_small h
      · intro h; rw [applyFriction_x_eq]; exact axFriction_of_large hft.le h
      · rw [applyFriction_x_eq]; exact (axFriction_sign_mag hft.le v.x).1
      · rw [applyFriction_x_eq]; exact (axFriction_sign_mag hft.le v.x).2
    · intro n
      rw [stepBody_iter_vel_x t n b hg hf.ne',
        stepBody_iter_vel_x t (n + 1) b hg hf.ne']
      constructor
      · exact axStep_iter_sign hft.le hm b.vel.x n
      · rw [Function.iterate_succ_apply']
        exact (axStep_sign_mag hft.le hm _).2
    · obtain ⟨k, hk⟩ := exists_nat_ge (|b.vel.x| / (b.friction.x * t))
      have hle : |b.vel.x| ≤ (k : ℚ) * (b.friction.x * t) := by
        rw [div_le_iff₀ hft] at hk
        linarith
      refine ⟨k, fun j hj => ?_⟩
      rw [stepBody_iter_vel_x t j b hg hf.ne']
      have hsplit : (axStep (b.friction.x * t) b.maxVel.x)^[j] b.vel.x
          = (axStep (b.friction.x * t) b.maxVel.x)^[j - k]
              ((axStep (b.friction.x * t) b.maxVel.x)^[k] b.vel.x) := by
        rw [← Function.iterate_add_apply, Nat.sub_add_cancel hj]
      rw [hsplit, axStep_iter_zero hft hm k b.vel.x hle,
        axStep_iter_stays_zero hft.le]
  · intro hf ha hm
    have hft : 0 < b.friction.y * t := mul_pos hf ht
    refine ⟨?_, ?_, ?_⟩
    · intro v
      refine ⟨?_, ?_, ?_, ?_⟩
      · intro h; rw [applyFriction_y_eq]; exact axFriction_of_small h
      · intro h; rw [applyFriction_y_eq]; exact axFriction_of_large hft.le h
      · rw [applyFriction_y_eq]; exact (axFriction_sign_mag hft.le v.y).1
      · rw [applyFriction_y_eq]; exact (axFriction_sign_mag hft.le v.y).2
    · intro n
      rw [stepBody_iter_vel_y t n b hg hf.ne',
        stepBody_iter_vel_y t (n + 1) b hg hf.ne']
      constructor
      · exact axStep_iter_sign hft.le hm b.vel.y n
      · rw [Function.iterate_succ_apply']
        exact (axStep_sign_mag hft.le hm _).2
    · obtain ⟨k, hk⟩ := exists_nat_ge (|b.vel.y| / (b.friction.y * t))
      have hle : |b.vel.y| ≤ (k : ℚ) * (b.friction.y * t) := by
        rw [div_le_iff₀ hft] at hk
        linarith
      refine ⟨k, fun j hj => ?_⟩
      rw [stepBody_iter_vel_y t j b hg hf.ne']
      have hsplit : (axStep (b.friction.y * t) b.maxVel.y)^[j] b.vel.y
          = (axStep (b.friction.y * t) b.maxVel.y)^[j - k]
              ((axStep (b.friction.y * t) b.maxVel.y)^[k] b.vel.y) := by
        rw [← Function.iterate_add_apply, Nat.sub_add_cancel hj]
      rw [hsplit, axStep_iter_zero hft hm k b.vel.y hle,
        axStep_iter_stays_zero hft.le]

/-- Witness for the amended C2 at a concrete body (`friction = (2, 3)`,
`vel = (5, 7)`, tick `1`): the hypotheses of both axis conjuncts are
discharged concretely, each axis velocity is exactly 0 from some step
on, and the evaluated third iterate is indeed 0 on both axes. -/
theorem friction_converges_to_zero_w :
    (0 : ℚ) < 1 ∧ bodyFriction.gravity = 0
      ∧ 0 < bodyFriction.friction.x ∧ bodyFriction.accel.x = 0
      ∧ 0 ≤ bodyFriction.maxVel.x
      ∧ 0 < bodyFriction.friction.y ∧ bodyFriction.accel.y = 0
      ∧ 0 ≤ bodyFriction.maxVel.y
      ∧ (∃ n : ℕ, ∀ k : ℕ, n ≤ k →
          ((stepBody 1)^[k] bodyFriction).vel.x = 0)
      ∧ (∃ n : ℕ, ∀ k : ℕ, n ≤ k →
          ((stepBody 1)^[k] bodyFriction).vel.y = 0)
      ∧ ((stepBody 1)^[3] bodyFriction).vel.x = 0
      ∧ ((stepBody 1)^[3] bodyFriction).vel.y = 0 := by
  have hth := friction_converges_to_zero bodyFriction 1 one_pos rfl
  refine ⟨one_pos, rfl, by norm_num [bodyFriction, bodyFix], rfl,
    by norm_num [bodyFriction, bodyFix],
    by norm_num [bodyFriction, bodyFix], rfl,
    by norm_num [bodyFriction, bodyFix], ?_, ?_, ?_, ?_⟩
  · exact (hth.1 (by norm_num [bodyFriction, bodyFix]) rfl
      (by norm_num [bodyFriction, bodyFix])).2.2
  · exact (hth.2 (by norm_num [bodyFriction, bodyFix]) rfl
      (by norm_num [bodyFriction, bodyFix])).2.2
  · show (stepBody 1 (stepBody 1 (stepBody 1 bodyFriction))).vel.x = 0
    norm_num [bodyFriction, bodyFix, stepBody, Body.update,
      Body.computeVelocity, Body.applyFriction, clamp]
  · show (stepBody 1 (stepBody 1 (stepBody 1 bodyFriction))).vel.y = 0
    norm_num [bodyFriction, bodyFix, stepBody, Body.update,
      Body.computeVelocity, Body.applyFriction, clamp]

/--
Claim C10: `Body.update` ignores its `dt` parameter entirely — for every
body state, tick value and pair of `dt` arguments the resulting state
change (velocity, flags, ancestor position) and the returned boolean are
identical, because the integration is scaled only by the process-wide
timer tick.
-/
theorem update_ignores_dt :
    ∀ (b : Body) (tick dt₁ dt₂ : ℚ),
      b.update tick dt₁ = b.update tick dt₂ := by
  intro b tick dt₁ dt₂
  rfl

/--
Claim C6: `setVelocity x y` overwrites `accel.x` only when `x` is
nonzero and `accel.y` only when `y` is nonzero (a zero argument leaves
that axis's acceleration unchanged), and always ends in
`setMaxVelocity x y`, so the max velocity is overwritten with the raw
arguments even when one of them is `0`.
-/
theorem setVelocity_zero_leaves_accel :
    ∀ (b : Body) (x y : ℚ),
      (b.setVelocity x y).accel.x = (if x ≠ 0 then x else b.accel.x)
      ∧ (b.setVelocity x y).accel.y = (if y ≠ 0 then y else b.accel.y)
      ∧ b.setVelocity x y
          = Body.setMaxVelocity
              { b with accel := ⟨if x ≠ 0 then x else b.accel.x,
                                 if y ≠ 0 then y else b.accel.y⟩ } x y
      ∧ (b.setVelocity x y).maxVel.x = x
      ∧ (b.setVelocity x y).maxVel.y = y := by
  intro b x y
  exact ⟨rfl, rfl, rfl, rfl, rfl⟩

/--
Claim C5: `respondToCollision` with a purely horizontal overlap
(`overlap.y = 0`) leaves the `falling`/`jumping` flags unchanged; with a
nonzero vertical overlap it recomputes them from the sign of the overlap
relative to the gravity direction `dir = Math.sign(gravity) || 1`:
`falling` becomes true iff `overlap.y ≥ dir` and `jumping` becomes true
iff `overlap.y ≤ -dir` (with `dir = 1` when gravity is 0).
-/
theorem respondToCollision_flag_update :
    ∀ (b : Body) (overlap : Vec2),
      (overlap.y = 0 →
        (b.respondToCollision overlap).falling = b.falling
        ∧ (b.respondToCollision overlap).jumping = b.jumping)
      ∧ (overlap.y ≠ 0 →
        ((b.respondToCollision overlap).falling = true
          ↔ (if jsSign b.gravity = 0 then 1 else jsSign b.gravity)
              ≤ overlap.y)
        ∧ ((b.respondToCollision overlap).jumping = true
          ↔ overlap.y
              ≤ -(if jsSign b.gravity = 0 then 1 else jsSign b.gravity))) := by
  intro b overlap
  constructor
  · intro hy
    simp only [Body.respondToCollision, hy, ne_eq, not_true_eq_false,
      if_false, reduceIte]
    split_ifs <;> exact ⟨rfl, rfl⟩
  · intro hy
    simp only [Body.respondToCollision, ne_eq, hy, not_false_iff, if_true,
      reduceIte]
    split_ifs <;> simp

/-- Witness for C5: at `bodyFix` (gravity 0, so `dir = 1`), a purely
horizontal overlap `(2, 0)` leaves the flags unchanged, and a vertical
overlap `(0, 2)` recomputes them. -/
theorem respondToCollision_flag_update_w :
    ((bodyFix.respondToCollision ⟨2, 0⟩).falling = bodyFix.falling
      ∧ (bodyFix.respondToCollision ⟨2, 0⟩).jumping = bodyFix.jumping)
    ∧ (((bodyFix.respondToCollision ⟨0, 2⟩).falling = true
        ↔ (if jsSign bodyFix.gravity = 0 then 1 else jsSign bodyFix.gravity)
            ≤ (2 : ℚ))
      ∧ ((bodyFix.respondToCollision ⟨0, 2⟩).jumping = true
        ↔ (2 : ℚ)
            ≤ -(if jsSign bodyFix.gravity = 0 then 1
                else jsSign bodyFix.gravity))) := by
  exact ⟨(respondToCollision_flag_update bodyFix ⟨2, 0⟩).1 rfl,
    (respondToCollision_flag_update bodyFix ⟨0, 2⟩).2 (by norm_num)⟩

/--
Claim C7: `setEvent` stores an explicitly passed `pointerId` even when it
is the (falsy but valid) value `0`; the default `1` is used only when the
`pointerId` argument is `undefined` (the source tests
`typeof pointerId !== "undefined"` rather than truthiness).
-/
theorem setEvent_pointerId_zero_preserved :
    ∀ (p : Pointer) (env : InputEnv) (ev : PtrEvent) (cx cy : ℚ),
      (p.setEvent env ev cx cy (some 0)).pointerId = some 0
      ∧ (p.setEvent env ev cx cy none).pointerId = some 1
      ∧ ∀ pid : ℚ,
          (p.setEvent env ev cx cy (some pid)).pointerId = some pid := by
  intro p env ev cx cy
  refine ⟨?_, ?_, fun pid => ?_⟩ <;>
    · simp only [Pointer.setEvent]
      rfl

/--
Claim C8: `setEvent` on an event whose type is `"wheel"` sets the
pointer's `deltaY` to `-1/40` times the event's `wheelDelta`; in
particular `wheelDelta = 80` yields `deltaY = -2` exactly.
-/
theorem setEvent_wheel_deltaY :
    ∀ (p : Pointer) (env : InputEnv) (ev : PtrEvent) (cx cy : ℚ)
      (pid : Option ℚ),
      ev.type = "wheel" →
      (p.setEvent env ev cx cy pid).deltaY = -1/40 * ev.wheelDelta
      ∧ (ev.wheelDelta = 80 →
          (p.setEvent env ev cx cy pid).deltaY = -2) := by
  intro p env ev cx cy pid hw
  have h1 : (p.setEvent env ev cx cy pid).deltaY = -1/40 * ev.wheelDelta := by
    simp only [Pointer.setEvent, hw, if_true, reduceIte]
    split_ifs <;> rfl
  refine ⟨h1, fun h80 => ?_⟩
  rw [h1, h80]
  norm_num

/-- Witness for C8: the concrete wheel event with `wheelDelta = 80` on
the zeroed pointer fixture gives `deltaY = -2`. -/
theorem setEvent_wheel_deltaY_w :
    wheelEvent.type = "wheel"
      ∧ (ptrFix.setEvent envFix wheelEvent 0 0 none).deltaY
          = -1/40 * wheelEvent.wheelDelta
      ∧ (ptrFix.setEvent envFix wheelEvent 0 0 none).deltaY = -2 := by
  have h := setEvent_wheel_deltaY ptrFix envFix wheelEvent 0 0 none rfl
  exact ⟨rfl, h.1, h.2 rfl⟩

/--
Claim C3: for every registered state `s` different from the current
state, when `change s` returns, the outgoing screen's `destroy` has not
been called — the log, current state, scheduled frame and registry are
unchanged and exactly one deferred action targeting `s` has been queued
(via the fade-in callback when a fade is configured, directly
otherwise); and the actual switch, `_switchState`, is what later stops
the run loop, destroys the outgoing screen if any, updates the current
state, resets the new screen with the stored extra arguments, restarts
the run loop (for a non-sentinel state), invokes the switch-complete
callback if set, and forces a repaint.
-/
theorem change_defers_switch :
    ∀ (m : StM) (s : Int) (args : List Int) (e : ScreenEntry),
      m.screens.lookup s = some e → m.state ≠ s →
      (∃ m', m.change s args = Except.ok m'
        ∧ m'.log = m.log
        ∧ m'.state = m.state
        ∧ m'.animFrameId = m.animFrameId
        ∧ m'.screens = m.screens
        ∧ ∃ p, m'.pending = m.pending ++ [p] ∧ p.target = s)
      ∧ (∀ m₀ : StM, m₀.screens.lookup s = some e →
          (m₀.switchState s).state = s
          ∧ (m₀.switchState s).log
              = m₀.log
                ++ (match m₀.screens.lookup m₀.state with
                    | some o => [Ev.destroy o.screen]
                    | none => [])
                ++ [Ev.reset e.screen (m₀.extraArgs.getD [])]
                ++ (if m₀.onSwitchComplete then [Ev.fadeOut] else [])
                ++ [Ev.repaint]
          ∧ (s ≠ -1 → (m₀.switchState s).isRunning = true)) := by
  intro m s args e hlk hne
  constructor
  · have hcur : m.isCurrent s = false := by
      simp [StM.isCurrent, hne]
    simp only [StM.change, hlk, hcur, Bool.false_eq_true, if_false]
    split_ifs with hfade <;>
      exact ⟨_, rfl, rfl, rfl, rfl, rfl, ⟨_, rfl, rfl⟩⟩
  · intro m₀ hlk0
    rcases hc : m₀.screens.lookup m₀.state with _ | o <;>
    · simp only [StM.switchState, StM.stopRunLoop, StM.startRunLoop,
        StM.isRunning, hc, hlk0]
      split_ifs <;> simp_all

/-- Witness for C3: in the two-screen fixture (current state `0`),
`change 1` leaves the log and state untouched and queues one deferred
action targeting `1`. -/
theorem change_defers_switch_w :
    stmFix.screens.lookup 1 = some ⟨11, true⟩
      ∧ stmFix.state ≠ 1
      ∧ ∃ m', stmFix.change 1 [] = Except.ok m'
          ∧ m'.log = stmFix.log
          ∧ m'.state = stmFix.state
          ∧ m'.animFrameId = stmFix.animFrameId
          ∧ m'.screens = stmFix.screens
          ∧ ∃ p, m'.pending = stmFix.pending ++ [p] ∧ p.target = 1 := by
  refine ⟨rfl, by decide, ?_⟩
  exact (change_defers_switch stmFix 1 [] ⟨11, true⟩ rfl (by decide)).1

/--
Claim C4: `change s` throws a synchronous lookup error if and only if no
screen is registered under `s`, and the error message contains the
offending state identifier; when `s` is registered and equal to the
current state, `change` returns the manager completely unchanged — no
destroy/reset is logged and no deferred switch is queued.
-/
theorem change_error_iff_unregistered :
    ∀ (m : StM) (s : Int) (args : List Int),
      (m.screens.lookup s = none
        ↔ ∃ msg, m.change s args = Except.error msg)
      ∧ (∀ msg, m.change s args = Except.error msg →
          ∃ pre post, msg = pre ++ toString s ++ post)
      ∧ (∀ e, m.screens.lookup s = some e → m.state = s →
          m.change s args = Except.ok m) := by
  intro m s args
  rcases hlk : m.screens.lookup s with _ | entry
  · refine ⟨⟨fun _ => ⟨changeErrorMsg s, by simp [StM.change, hlk]⟩,
      fun _ => rfl⟩, ?_, ?_⟩
    · intro msg hmsg
      simp only [StM.change, hlk, Except.error.injEq] at hmsg
      exact ⟨"Undefined ScreenObject for state \x27", "\x27", hmsg.symm⟩
    · intro e he
      exact absurd he (by simp)
  · have hok : ∀ msg, m.change s args ≠ Except.error msg := by
      intro msg
      simp only [StM.change, hlk]
      split_ifs <;> simp
    refine ⟨⟨fun h => by simp [hlk] at h,
      fun ⟨msg, hmsg⟩ => absurd hmsg (hok msg)⟩,
      fun msg hmsg => absurd hmsg (hok msg), ?_⟩
    intro e he hcur
    have : m.isCurrent s = true := by simp [StM.isCurrent, hcur]
    simp [StM.change, hlk, this]

/-- Witness for C4: in the two-screen fixture, `change` to the
unregistered state `5` fails with a message containing `5`, and `change`
to the current state `0` is a no-op returning the unchanged manager. -/
theorem change_error_iff_unregistered_w :
    stmFix.screens.lookup 5 = none
      ∧ (∃ msg, stmFix.change 5 [] = Except.error msg
          ∧ ∃ pre post, msg = pre ++ toString (5 : Int) ++ post)
      ∧ stmFix.screens.lookup 0 = some ⟨10, true⟩
      ∧ stmFix.state = 0
      ∧ stmFix.change 0 [] = Except.ok stmFix := by
  obtain ⟨h1, h2, _⟩ := change_error_iff_unregistered stmFix 5 []
  obtain ⟨msg, hmsg⟩ := h1.mp rfl
  refine ⟨rfl, ⟨msg, hmsg, h2 msg hmsg⟩, rfl, rfl, ?_⟩
  exact (change_error_iff_unregistered stmFix 0 []).2.2 ⟨10, true⟩ rfl rfl

/--
Claim C9: whenever no screen is registered under the current state —
in particular in the initial configuration where the current state is
`-1` and the registry is empty — `current()` fails with a runtime error
(the source dereferences `_screenObject[_state].screen` without a
guard, a JS `TypeError` on `undefined`) rather than returning a screen.
-/
theorem current_fails_when_unregistered :
    (∀ m : StM, m.screens.lookup m.state = none →
      (∃ err, m.current = Except.error err)
      ∧ ∀ v, m.current ≠ Except.ok v)
    ∧ StM.start.state = -1
    ∧ StM.start.screens.lookup StM.start.state = none
    ∧ ∃ err, StM.start.current = Except.error err := by
  have h : ∀ m : StM, m.screens.lookup m.state = none →
      (∃ err, m.current = Except.error err)
      ∧ ∀ v, m.current ≠ Except.ok v := by
    intro m hm
    constructor
    · exact ⟨"TypeError: Cannot read property of undefined",
        by simp [StM.current, hm]⟩
    · intro v
      simp [StM.current, hm]
  exact ⟨h, rfl, rfl, (h StM.start rfl).1⟩

/-- Witness for C9: the load-time manager state has current state `-1`,
no registry entry for it, and `current()` yields an error. -/
theorem current_fails_when_unregistered_w :
    StM.start.screens.lookup StM.start.state = none
      ∧ ∃ err, StM.start.current = Except.error err :=
  ⟨rfl, (current_fails_when_unregistered.1 StM.start rfl).1⟩

end MelonJS
